import Mathlib

/-!
Shallow embedding of `src-tauri/src/pty.rs`: a registry of pseudo-terminal
sessions (`PTY_SESSIONS : Mutex<HashMap<String, PtySession>>`) with commands
`spawn_pty`, `write_pty`, `resize_pty`, `kill_pty` and a per-session output
pump thread that forwards lossily-decoded output chunks and a final exit
event.

Bytes are modelled as `Nat` (each < 256 in intended use), decoded text as the
list of Unicode code points, and OS outcomes (I/O errors, wait results) as
oracle fields carried by the embedded handles.
-/

namespace BonkPty

/-- The Unicode replacement character U+FFFD, used by lossy UTF-8 decoding. -/
def REPLACEMENT : Nat := 0xFFFD

/-- A Unicode scalar value: below 0x110000 and not a surrogate. -/
def ValidCp (v : Nat) : Prop := v < 0x110000 ∧ (v < 0xD800 ∨ 0xE000 ≤ v)

instance instDecidableValidCp (v : Nat) : Decidable (ValidCp v) :=
  inferInstanceAs (Decidable (v < 0x110000 ∧ (v < 0xD800 ∨ 0xE000 ≤ v)))

/-- A UTF-8 continuation byte: 0x80..0xBF. -/
def isCont (b : Nat) : Bool := decide (0x80 ≤ b) && decide (b < 0xC0)

/-- Allowed second byte after a three-byte lead, per Rust's UTF-8 validation
(E0 excludes overlongs, ED excludes surrogates). -/
def cont3fst (b0 b1 : Nat) : Bool :=
  if b0 = 0xE0 then decide (0xA0 ≤ b1) && decide (b1 < 0xC0)
  else if b0 = 0xED then decide (0x80 ≤ b1) && decide (b1 < 0xA0)
  else isCont b1

/-- Allowed second byte after a four-byte lead, per Rust's UTF-8 validation
(F0 excludes overlongs, F4 caps at U+10FFFF). -/
def cont4fst (b0 b1 : Nat) : Bool :=
  if b0 = 0xF0 then decide (0x90 ≤ b1) && decide (b1 < 0xC0)
  else if b0 = 0xF4 then decide (0x80 ≤ b1) && decide (b1 < 0x90)
  else isCont b1

/-- One step of UTF-8 decoding as performed by Rust's `String::from_utf8_lossy`:
given the first byte and the remaining bytes, return the decoded scalar value
(or `none` for an invalid maximal subpart) and the number of bytes consumed. -/
def utf8DecodeOne (b0 : Nat) (rest : List Nat) : Option Nat × Nat :=
  if b0 < 0x80 then (some b0, 1)
  else if b0 < 0xC2 then (none, 1)
  else if b0 < 0xE0 then
    match rest with
    | b1 :: _ =>
      if isCont b1 then (some ((b0 - 0xC0) * 64 + (b1 - 0x80)), 2) else (none, 1)
    | [] => (none, 1)
  else if b0 < 0xF0 then
    match rest with
    | b1 :: rest1 =>
      if cont3fst b0 b1 then
        match rest1 with
        | b2 :: _ =>
          if isCont b2 then
            (some ((b0 - 0xE0) * 4096 + (b1 - 0x80) * 64 + (b2 - 0x80)), 3)
          else (none, 2)
        | [] => (none, 2)
      else (none, 1)
    | [] => (none, 1)
  else if b0 < 0xF5 then
    match rest with
    | b1 :: rest1 =>
      if cont4fst b0 b1 then
        match rest1 with
        | b2 :: rest2 =>
          if isCont b2 then
            match rest2 with
            | b3 :: _ =>
              if isCont b3 then
                (some ((b0 - 0xF0) * 262144 + (b1 - 0x80) * 4096 +
                       (b2 - 0x80) * 64 + (b3 - 0x80)), 4)
              else (none, 3)
            | [] => (none, 3)
          else (none, 2)
        | [] => (none, 2)
      else (none, 1)
    | [] => (none, 1)
  else (none, 1)

/-- Fuel-indexed driver for lossy UTF-8 decoding: each invalid maximal subpart
becomes one replacement character, decoding never fails. -/
def utf8LossyAux : Nat → List Nat → List Nat
  | 0, _ => []
  | _, [] => []
  | fuel + 1, b0 :: rest =>
    match utf8DecodeOne b0 rest with
    | (some v, k) => v :: utf8LossyAux fuel (rest.drop (k - 1))
    | (none, k) => REPLACEMENT :: utf8LossyAux fuel (rest.drop (k - 1))

/-- Lossy UTF-8 decoding of a byte list to the list of decoded code points,
modelling Rust's `String::from_utf8_lossy`. -/
def utf8Lossy (bs : List Nat) : List Nat := utf8LossyAux bs.length bs

/-- UTF-8 encoding of one Unicode scalar value. -/
def encodeCp (v : Nat) : List Nat :=
  if v < 0x80 then [v]
  else if v < 0x800 then [0xC0 + v / 64, 0x80 + v % 64]
  else if v < 0x10000 then
    [0xE0 + v / 4096, 0x80 + (v / 64) % 64, 0x80 + v % 64]
  else
    [0xF0 + v / 262144, 0x80 + (v / 4096) % 64, 0x80 + (v / 64) % 64, 0x80 + v % 64]

/-- UTF-8 encoding of a list of code points. -/
def encodeAll (cps : List Nat) : List Nat := (cps.map encodeCp).flatten

example : utf8Lossy [104, 105] = [104, 105] := by decide
example : utf8Lossy [0xC3, 0xA9] = [0xE9] := by decide
example : utf8Lossy [0xC3] = [REPLACEMENT] := by decide
example : utf8Lossy [0xA9] = [REPLACEMENT] := by decide
example : utf8Lossy [0xE2, 0x82, 0xAC] = [0x20AC] := by decide
example : utf8Lossy [0xE2, 0x82] = [REPLACEMENT] := by decide
example : utf8Lossy [0xF0, 0x9F, 0x98, 0x80] = [0x1F600] := by decide
example : utf8Lossy [0xED, 0xA0, 0x80] = [REPLACEMENT, REPLACEMENT, REPLACEMENT] := by decide
example : encodeAll [0xE9] = [0xC3, 0xA9] := by decide

/-! ## Data model: session handles and the registry -/

/-- The input sink stored in a `PtySession` (`writer: Box<dyn Write + Send>`).
`committed`/`buffered` model bytes flushed to the pty versus handed to the
writer but not yet flushed; `writeResult`/`flushResult` are the oracle
outcomes of the next `write_all`/`flush` OS calls (`some e` = that call
fails with error message `e`). -/
structure Writer where
  committed : List Nat
  buffered : List Nat
  writeResult : Option String
  flushResult : Option String
deriving DecidableEq

/-- The process control handle (`child: Box<dyn Child + Send>`). `waitResult`
is the oracle outcome of `wait()` (`some v` = exits with `exit_code() = v`
as a `u32`, `none` = the wait fails); `killResult` is the oracle outcome of
`kill()`. -/
structure Child where
  waitResult : Option Nat
  killResult : Option String
deriving DecidableEq

/-- The terminal control handle (`master: Box<dyn MasterPty + Send>`) with its
current geometry and the oracle outcome of the next `resize` ioctl. -/
structure Master where
  rows : Nat
  cols : Nat
  resizeResult : Option String
deriving DecidableEq

/-- One registry entry: the struct `PtySession { writer, child, master }`. -/
structure PtySession where
  writer : Writer
  child : Child
  master : Master
deriving DecidableEq

/-- The registry `PTY_SESSIONS : Mutex<HashMap<String, PtySession>>`, embedded
as an association list with (intended) pairwise-distinct keys. -/
abbrev Registry := List (String × PtySession)

/-- `HashMap::get` / `get_mut` lookup: the entry stored under `sid`. -/
def Registry.get (reg : Registry) (sid : String) : Option PtySession :=
  match reg with
  | [] => none
  | (k, s) :: rest => if k = sid then some s else Registry.get rest sid

/-- `HashMap::remove`: the removed entry (if any) and the remaining registry. -/
def Registry.remove (reg : Registry) (sid : String) : Option PtySession × Registry :=
  match reg with
  | [] => (none, [])
  | (k, s) :: rest =>
    if k = sid then (some s, rest)
    else
      let r := Registry.remove rest sid
      (r.1, (k, s) :: r.2)

/-- `HashMap::insert`: stores `s` under `sid`, silently replacing (and
dropping) any previous entry under the same key — exactly the semantics of
`sessions.insert(session_id, …)` in `spawn_pty`. -/
def Registry.insert (reg : Registry) (sid : String) (s : PtySession) : Registry :=
  match reg with
  | [] => [(sid, s)]
  | (k, old) :: rest =>
    if k = sid then (sid, s) :: rest
    else (k, old) :: Registry.insert rest sid s

/-- In-place mutation of the entry under `sid` (the effect of operating on the
handle returned by `get_mut` / `get`). -/
def Registry.update (reg : Registry) (sid : String) (f : PtySession → PtySession) :
    Registry :=
  match reg with
  | [] => []
  | (k, s) :: rest =>
    if k = sid then (k, f s) :: Registry.update rest sid f
    else (k, s) :: Registry.update rest sid f

/-- The `HashMap` representation invariant: one entry per key. -/
def KeysNodup (reg : Registry) : Prop := (reg.map Prod.fst).Nodup

/-! ## Notifications -/

/-- The two notification kinds emitted via `app.emit`: `"pty-data"` with
payload `PtyData { session_id, data }` (decoded text, here as code points)
and `"pty-exit"` with payload `PtyExit { session_id, code }`. -/
inductive PtyEvent
  | data (session_id : String) (payload : List Nat)
  | exit (session_id : String) (code : Int)
deriving DecidableEq

/-- The decoded-text payload of a data event (empty for an exit event). -/
def payloadOf : PtyEvent → List Nat
  | .data _ p => p
  | .exit _ _ => []

/-- Whether an event is an exit notification. -/
def isExitEvent : PtyEvent → Bool
  | .data _ _ => false
  | .exit _ _ => true

/-- The `status.exit_code() as i32` cast: a `u32` reinterpreted as an `i32`. -/
def u32ToI32 (v : Nat) : Int :=
  if v % 4294967296 < 2147483648 then ((v % 4294967296 : Nat) : Int)
  else ((v % 4294967296 : Nat) : Int) - 4294967296

/-! ## Commands -/

/-- The command built by `CommandBuilder::new("claude")` + `cmd.cwd(&cwd)`. -/
structure CommandBuilder where
  program : String
  args : List String
  cwd : String
deriving DecidableEq

/-- OS oracle for one `spawn_pty` call: outcomes of `openpty`,
`slave.spawn_command`, `master.take_writer`, `master.try_clone_reader`
(`some e` = that step fails with error `e`), and the oracle fields installed
into the freshly created handles on success. -/
structure SpawnEnv where
  openptyErr : Option String
  spawnErr : Option String
  writerErr : Option String
  readerErr : Option String
  writeResult : Option String
  flushResult : Option String
  waitResult : Option Nat
  killResult : Option String
  resizeResult : Option String
deriving DecidableEq

/-- The session handle a successful `spawn_pty` stores: fresh writer, the
spawned child, and the master of the pty pair opened at 24 rows × 80 cols. -/
def spawnSession (env : SpawnEnv) : PtySession :=
  { writer := { committed := [], buffered := [],
                writeResult := env.writeResult, flushResult := env.flushResult }
    child := { waitResult := env.waitResult, killResult := env.killResult }
    master := { rows := 24, cols := 80, resizeResult := env.resizeResult } }

/-- Everything observable about one `spawn_pty` call: its returned result, the
registry afterwards, whether the reader thread (Output Pump) was spawned, and
the command handed to `spawn_command` (if that point was reached). -/
structure SpawnResult where
  res : Except String Unit
  registry : Registry
  pumpStarted : Bool
  launched : Option CommandBuilder

/-- Embedding of `spawn_pty(app, session_id, cwd)`: `openpty` at 24×80, build
`CommandBuilder::new("claude")` with `cwd`, `spawn_command`, `take_writer`,
`try_clone_reader` — each fallible step exits early with its error via `?` —
then unconditionally `sessions.insert(session_id, …)` and spawn the reader
thread. -/
def spawn_pty (env : SpawnEnv) (reg : Registry) (session_id cwd : String) :
    SpawnResult :=
  match env.openptyErr with
  | some e => ⟨.error e, reg, false, none⟩
  | none =>
    let cmd : CommandBuilder := ⟨"claude", [], cwd⟩
    match env.spawnErr with
    | some e => ⟨.error e, reg, false, some cmd⟩
    | none =>
      match env.writerErr with
      | some e => ⟨.error e, reg, false, some cmd⟩
      | none =>
        match env.readerErr with
        | some e => ⟨.error e, reg, false, some cmd⟩
        | none => ⟨.ok (), reg.insert session_id (spawnSession env), true, some cmd⟩

/-- Embedding of `write_pty(session_id, data)`: look up via `get_mut`; absent →
`Err("Session not found")`; else `write_all(data.as_bytes())?` then
`flush()?`. `write_all` hands the bytes to the writer, `flush` commits the
writer's buffered bytes to the pty. Returns the result and the registry
afterwards. -/
def write_pty (reg : Registry) (session_id : String) (data : List Nat) :
    Except String Unit × Registry :=
  match reg.get session_id with
  | none => (.error "Session not found", reg)
  | some s =>
    match s.writer.writeResult with
    | some e => (.error e, reg)
    | none =>
      let afterWrite : PtySession :=
        { s with writer := { s.writer with buffered := s.writer.buffered ++ data } }
      match s.writer.flushResult with
      | some e => (.error e, reg.update session_id fun _ => afterWrite)
      | none =>
        let afterFlush : PtySession :=
          { afterWrite with writer :=
              { afterWrite.writer with
                  committed := afterWrite.writer.committed ++ afterWrite.writer.buffered
                  buffered := [] } }
        (.ok (), reg.update session_id fun _ => afterFlush)

/-- Embedding of `resize_pty(session_id, cols, rows)`: look up via `get`;
absent → `Err("Session not found")`; else `master.resize(PtySize { rows,
cols, .. })?` which applies the new geometry to the terminal handle. -/
def resize_pty (reg : Registry) (session_id : String) (cols rows : Nat) :
    Except String Unit × Registry :=
  match reg.get session_id with
  | none => (.error "Session not found", reg)
  | some s =>
    match s.master.resizeResult with
    | some e => (.error e, reg)
    | none =>
      (.ok (), reg.update session_id fun t =>
        { t with master := { t.master with rows := rows, cols := cols } })

/-- Embedding of `kill_pty(session_id)`: `sessions.remove(&session_id)`;
absent → `Err("Session not found")`; else `session.child.kill()?` — the entry
stays removed even when `kill()` fails. The third component is the list of
notifications this command emits (none: only the pump thread calls
`app.emit`). -/
def kill_pty (reg : Registry) (session_id : String) :
    Except String Unit × Registry × List PtyEvent :=
  match reg.remove session_id with
  | (none, _) => (.error "Session not found", reg, [])
  | (some s, reg1) =>
    match s.child.killResult with
    | some e => (.error e, reg1, [])
    | none => (.ok (), reg1, [])

/-! ## The Output Pump (per-session reader thread) -/

/-- The outcome of one blocking `reader.read(&mut buf)` call: `Ok(n)` is
modelled as `ok bytes` with `bytes` the `n` bytes read, `Err(_)` as `err`. -/
inductive ReadResult
  | ok (bytes : List Nat)
  | err
deriving DecidableEq

/-- The read buffer size: `let mut buf = [0u8; 4096]`. -/
def BUF_SIZE : Nat := 4096

/-- The Reading loop of the pump thread: each non-empty read is decoded with
`String::from_utf8_lossy` and emitted as a `"pty-data"` event; `Ok(0)` and
`Err(_)` break the loop. -/
def pumpLoop (session_id : String) (reads : List ReadResult) : List PtyEvent :=
  match reads with
  | [] => []
  | .ok [] :: _ => []
  | .ok (b :: bs) :: rest =>
    .data session_id (utf8Lossy (b :: bs)) :: pumpLoop session_id rest
  | .err :: _ => []

/-- The exit code computed after the loop: remove the session from the
registry; if present, `child.wait().map(|st| st.exit_code() as i32)
.unwrap_or(-1)`; if absent, `-1`. -/
def reapExitCode (reg : Registry) (session_id : String) : Int :=
  match (reg.remove session_id).1 with
  | some s =>
    match s.child.waitResult with
    | some v => u32ToI32 v
    | none => -1
  | none => -1

/-- The post-loop step of the pump thread: the single `"pty-exit"` event and
the registry after the removal, where `reg` is the registry at that moment. -/
def pumpFinish (reg : Registry) (session_id : String) : PtyEvent × Registry :=
  (.exit session_id (reapExitCode reg session_id), (reg.remove session_id).2)

/-- The complete event trace of one pump thread, given the sequence of read
outcomes and the registry when the loop ends. -/
def pumpRun (session_id : String) (reads : List ReadResult) (reg : Registry) :
    List PtyEvent × Registry :=
  (pumpLoop session_id reads ++ [(pumpFinish reg session_id).1],
   (pumpFinish reg session_id).2)

/-! ## Registry lemmas -/

theorem Registry.remove_fst (reg : Registry) (sid : String) :
    (reg.remove sid).1 = reg.get sid := by
  induction reg with
  | nil => rfl
  | cons p rest ih =>
    obtain ⟨k, s⟩ := p
    simp only [Registry.remove, Registry.get]
    by_cases h : k = sid
    · simp [h]
    · simp [h, ih]

theorem Registry.get_eq_none_of_not_mem (reg : Registry) (sid : String)
    (h : sid ∉ reg.map Prod.fst) : reg.get sid = none := by
  induction reg with
  | nil => rfl
  | cons p rest ih =>
    obtain ⟨k, s⟩ := p
    simp only [List.map_cons, List.mem_cons] at h
    push_neg at h
    simp only [Registry.get]
    rw [if_neg (fun hk => h.1 hk.symm)]
    exact ih h.2

theorem Registry.remove_absent (reg : Registry) (sid : String)
    (h : reg.get sid = none) : (reg.remove sid).2 = reg := by
  induction reg with
  | nil => rfl
  | cons p rest ih =>
    obtain ⟨k, s⟩ := p
    simp only [Registry.get] at h
    by_cases hk : k = sid
    · simp [hk] at h
    · simp only [Registry.remove, if_neg hk]
      rw [if_neg hk] at h
      simp [ih h]

theorem Registry.get_insert_self (reg : Registry) (sid : String) (s : PtySession) :
    (reg.insert sid s).get sid = some s := by
  induction reg with
  | nil => simp [Registry.insert, Registry.get]
  | cons p rest ih =>
    obtain ⟨k, old⟩ := p
    simp only [Registry.insert]
    by_cases h : k = sid
    · simp [h, Registry.get]
    · simp [h, Registry.get, ih]

theorem Registry.mem_keys_insert (reg : Registry) (sid x : String) (s : PtySession)
    (h : x ∈ (reg.insert sid s).map Prod.fst) :
    x ∈ reg.map Prod.fst ∨ x = sid := by
  induction reg with
  | nil => simpa [Registry.insert] using h
  | cons p rest ih =>
    obtain ⟨k, old⟩ := p
    simp only [Registry.insert] at h
    by_cases hk : k = sid
    · rw [if_pos hk] at h
      simp only [List.map_cons, List.mem_cons] at h ⊢
      rcases h with h | h
      · exact Or.inr h
      · exact Or.inl (Or.inr h)
    · rw [if_neg hk] at h
      simp only [List.map_cons, List.mem_cons] at h ⊢
      rcases h with h | h
      · exact Or.inl (Or.inl h)
      · rcases ih h with h' | h'
        · exact Or.inl (Or.inr h')
        · exact Or.inr h'

theorem Registry.insert_keysNodup (reg : Registry) (sid : String) (s : PtySession)
    (h : KeysNodup reg) : KeysNodup (reg.insert sid s) := by
  induction reg with
  | nil => simp [Registry.insert, KeysNodup]
  | cons p rest ih =>
    obtain ⟨k, old⟩ := p
    simp only [KeysNodup, List.map_cons, List.nodup_cons] at h
    by_cases hk : k = sid
    · subst hk
      have hins : Registry.insert ((k, old) :: rest) k s = (k, s) :: rest := by
        simp [Registry.insert]
      rw [hins]
      simp only [KeysNodup, List.map_cons, List.nodup_cons]
      exact h
    · have hrest := ih h.2
      simp only [Registry.insert, if_neg hk, KeysNodup, List.map_cons,
        List.nodup_cons]
      refine ⟨fun hmem => ?_, hrest⟩
      rcases Registry.mem_keys_insert rest sid k s hmem with h' | h'
      · exact h.1 h'
      · exact hk h'

theorem Registry.mem_keys_remove (reg : Registry) (sid x : String)
    (h : x ∈ ((reg.remove sid).2).map Prod.fst) : x ∈ reg.map Prod.fst := by
  induction reg with
  | nil => simp [Registry.remove] at h
  | cons p rest ih =>
    obtain ⟨k, s⟩ := p
    simp only [Registry.remove] at h
    by_cases hk : k = sid
    · rw [if_pos hk] at h
      simp only [List.map_cons, List.mem_cons]
      exact Or.inr h
    · rw [if_neg hk] at h
      simp only [List.map_cons, List.mem_cons] at h ⊢
      rcases h with h | h
      · exact Or.inl h
      · exact Or.inr (ih h)

theorem Registry.remove_keysNodup (reg : Registry) (sid : String)
    (h : KeysNodup reg) : KeysNodup (reg.remove sid).2 := by
  induction reg with
  | nil => simpa [Registry.remove] using h
  | cons p rest ih =>
    obtain ⟨k, s⟩ := p
    simp only [KeysNodup, List.map_cons, List.nodup_cons] at h
    by_cases hk : k = sid
    · simpa [Registry.remove, hk, KeysNodup] using h.2
    · have hrest := ih h.2
      simp only [Registry.remove, if_neg hk, KeysNodup, List.map_cons,
        List.nodup_cons]
      exact ⟨fun hmem => h.1 (Registry.mem_keys_remove rest sid k hmem), hrest⟩

theorem Registry.get_remove_self (reg : Registry) (sid : String)
    (h : KeysNodup reg) : ((reg.remove sid).2).get sid = none := by
  induction reg with
  | nil => rfl
  | cons p rest ih =>
    obtain ⟨k, s⟩ := p
    simp only [KeysNodup, List.map_cons, List.nodup_cons] at h
    by_cases hk : k = sid
    · simp only [Registry.remove, if_pos hk]
      exact Registry.get_eq_none_of_not_mem rest sid (hk ▸ h.1)
    · simp only [Registry.remove, if_neg hk, Registry.get]
      exact ih h.2

theorem Registry.get_update (reg : Registry) (sid : String)
    (f : PtySession → PtySession) :
    (reg.update sid f).get sid = (reg.get sid).map f := by
  induction reg with
  | nil => rfl
  | cons p rest ih =>
    obtain ⟨k, s⟩ := p
    by_cases h : k = sid
    · subst h
      simp [Registry.update, Registry.get]
    · simp only [Registry.update, if_neg h, Registry.get]
      exact ih

theorem Registry.update_keys (reg : Registry) (sid : String)
    (f : PtySession → PtySession) :
    (reg.update sid f).map Prod.fst = reg.map Prod.fst := by
  induction reg with
  | nil => rfl
  | cons p rest ih =>
    obtain ⟨k, s⟩ := p
    by_cases h : k = sid
    · subst h
      simp [Registry.update, ih]
    · simp [Registry.update, h, ih]

theorem Registry.update_keysNodup (reg : Registry) (sid : String)
    (f : PtySession → PtySession) (h : KeysNodup reg) :
    KeysNodup (reg.update sid f) := by
  unfold KeysNodup
  rw [Registry.update_keys]
  exact h

/-! ## UTF-8 lemmas -/

theorem utf8LossyAux_congr (fuel1 : Nat) : ∀ (fuel2 : Nat) (bs : List Nat),
    bs.length ≤ fuel1 → bs.length ≤ fuel2 →
    utf8LossyAux fuel1 bs = utf8LossyAux fuel2 bs := by
  induction fuel1 with
  | zero =>
    intro fuel2 bs h1 _
    have hbs : bs = [] := List.eq_nil_of_length_eq_zero (Nat.le_zero.mp h1)
    subst hbs
    cases fuel2 <;> rfl
  | succ f ih =>
    intro fuel2 bs h1 h2
    cases bs with
    | nil => cases fuel2 <;> rfl
    | cons b0 rest =>
      cases fuel2 with
      | zero => simp at h2
      | succ f2 =>
        simp only [List.length_cons, Nat.add_le_add_iff_right] at h1 h2
        simp only [utf8LossyAux]
        rcases hdec : utf8DecodeOne b0 rest with ⟨o, k⟩
        have hd1 : (rest.drop (k - 1)).length ≤ f := by
          simp only [List.length_drop]
          omega
        have hd2 : (rest.drop (k - 1)).length ≤ f2 := by
          simp only [List.length_drop]
          omega
        cases o <;> simp only [hdec] <;>
          exact congrArg _ (ih f2 _ hd1 hd2)

theorem utf8LossyAux_length_le (fuel : Nat) : ∀ bs : List Nat,
    (utf8LossyAux fuel bs).length ≤ bs.length := by
  induction fuel with
  | zero => intro bs; simp [utf8LossyAux]
  | succ f ih =>
    intro bs
    cases bs with
    | nil => simp [utf8LossyAux]
    | cons b0 rest =>
      simp only [utf8LossyAux]
      rcases hdec : utf8DecodeOne b0 rest with ⟨o, k⟩
      have hrec := ih (rest.drop (k - 1))
      simp only [List.length_drop] at hrec
      cases o <;> simp only [hdec, List.length_cons] <;> omega

theorem utf8Lossy_length_le (bs : List Nat) : (utf8Lossy bs).length ≤ bs.length :=
  utf8LossyAux_length_le bs.length bs

theorem utf8LossyAux_cons (fuel : Nat) (b0 : Nat) (rest : List Nat) :
    utf8LossyAux (fuel + 1) (b0 :: rest) =
      match utf8DecodeOne b0 rest with
      | (some v, k) => v :: utf8LossyAux fuel (rest.drop (k - 1))
      | (none, k) => REPLACEMENT :: utf8LossyAux fuel (rest.drop (k - 1)) := rfl

theorem utf8Lossy_cons_some (b0 : Nat) (rest : List Nat) (v k : Nat)
    (h : utf8DecodeOne b0 rest = (some v, k)) :
    utf8Lossy (b0 :: rest) = v :: utf8Lossy (rest.drop (k - 1)) := by
  show utf8LossyAux (rest.length + 1) (b0 :: rest) = _
  rw [utf8LossyAux_cons, h]
  refine congrArg (v :: ·) (utf8LossyAux_congr rest.length _ _ ?_ le_rfl)
  simp only [List.length_drop]
  omega

theorem utf8DecodeOne_ascii (v : Nat) (bs : List Nat) (h : v < 0x80) :
    utf8DecodeOne v bs = (some v, 1) := by
  simp [utf8DecodeOne, h]

theorem utf8DecodeOne_two (v : Nat) (bs : List Nat)
    (h1 : 0x80 ≤ v) (h2 : v < 0x800) :
    utf8DecodeOne (0xC0 + v / 64) ((0x80 + v % 64) :: bs) = (some v, 2) := by
  have e0 : ¬ (0xC0 + v / 64 < 0x80) := by omega
  have e1 : ¬ (0xC0 + v / 64 < 0xC2) := by omega
  have e2 : 0xC0 + v / 64 < 0xE0 := by omega
  have e3 : isCont (0x80 + v % 64) = true := by
    simp only [isCont, Bool.and_eq_true, decide_eq_true_eq]
    omega
  simp only [utf8DecodeOne, if_neg e0, if_neg e1, if_pos e2, e3, if_pos,
    Prod.mk.injEq, Option.some.injEq]
  exact ⟨by omega, trivial⟩

theorem utf8DecodeOne_three (v : Nat) (bs : List Nat)
    (h1 : 0x800 ≤ v) (h2 : v < 0x10000) (hsur : v < 0xD800 ∨ 0xE000 ≤ v) :
    utf8DecodeOne (0xE0 + v / 4096)
      ((0x80 + (v / 64) % 64) :: (0x80 + v % 64) :: bs) = (some v, 3) := by
  have hdd : v / 64 / 64 = v / 4096 := by
    rw [Nat.div_div_eq_div_mul]
  have e0 : ¬ (0xE0 + v / 4096 < 0x80) := by omega
  have e1 : ¬ (0xE0 + v / 4096 < 0xC2) := by omega
  have e2 : ¬ (0xE0 + v / 4096 < 0xE0) := by omega
  have e3 : 0xE0 + v / 4096 < 0xF0 := by omega
  have e4 : cont3fst (0xE0 + v / 4096) (0x80 + (v / 64) % 64) = true := by
    simp only [cont3fst, isCont]
    split_ifs with hc1 hc2 <;>
      simp only [Bool.and_eq_true, decide_eq_true_eq] <;> omega
  have e5 : isCont (0x80 + v % 64) = true := by
    simp only [isCont, Bool.and_eq_true, decide_eq_true_eq]
    omega
  simp only [utf8DecodeOne, if_neg e0, if_neg e1, if_neg e2, if_pos e3, e4,
    if_pos, e5, Prod.mk.injEq, Option.some.injEq]
  exact ⟨by omega, trivial⟩

theorem utf8DecodeOne_four (v : Nat) (bs : List Nat)
    (h1 : 0x10000 ≤ v) (h2 : v < 0x110000) :
    utf8DecodeOne (0xF0 + v / 262144)
      ((0x80 + (v / 4096) % 64) :: (0x80 + (v / 64) % 64) :: (0x80 + v % 64) :: bs)
      = (some v, 4) := by
  have hdd1 : v / 64 / 64 = v / 4096 := by
    rw [Nat.div_div_eq_div_mul]
  have hdd2 : v / 4096 / 64 = v / 262144 := by
    rw [Nat.div_div_eq_div_mul]
  have e0 : ¬ (0xF0 + v / 262144 < 0x80) := by omega
  have e1 : ¬ (0xF0 + v / 262144 < 0xC2) := by omega
  have e2 : ¬ (0xF0 + v / 262144 < 0xE0) := by omega
  have e3 : ¬ (0xF0 + v / 262144 < 0xF0) := by omega
  have e4 : 0xF0 + v / 262144 < 0xF5 := by omega
  have e5 : cont4fst (0xF0 + v / 262144) (0x80 + (v / 4096) % 64) = true := by
    simp only [cont4fst, isCont]
    split_ifs with hc1 hc2 <;>
      simp only [Bool.and_eq_true, decide_eq_true_eq] <;> omega
  have e6 : isCont (0x80 + (v / 64) % 64) = true := by
    simp only [isCont, Bool.and_eq_true, decide_eq_true_eq]
    omega
  have e7 : isCont (0x80 + v % 64) = true := by
    simp only [isCont, Bool.and_eq_true, decide_eq_true_eq]
    omega
  simp only [utf8DecodeOne, if_neg e0, if_neg e1, if_neg e2, if_neg e3,
    if_pos e4, e5, if_pos, e6, e7, Prod.mk.injEq, Option.some.injEq]
  exact ⟨by omega, trivial⟩

theorem utf8Lossy_encode_cons (v : Nat) (hv : ValidCp v) (bs : List Nat) :
    utf8Lossy (encodeCp v ++ bs) = v :: utf8Lossy bs := by
  obtain ⟨hlt, hsur⟩ := hv
  by_cases h1 : v < 0x80
  · rw [show encodeCp v = [v] from by simp [encodeCp, h1]]
    rw [List.cons_append, List.nil_append,
      utf8Lossy_cons_some v bs v 1 (utf8DecodeOne_ascii v bs h1)]
    simp
  · by_cases h2 : v < 0x800
    · rw [show encodeCp v = [0xC0 + v / 64, 0x80 + v % 64] from by
        simp [encodeCp, h1, h2]]
      rw [List.cons_append, List.cons_append, List.nil_append,
        utf8Lossy_cons_some _ _ v 2 (utf8DecodeOne_two v bs (by omega) h2)]
      simp
    · by_cases h3 : v < 0x10000
      · rw [show encodeCp v = [0xE0 + v / 4096, 0x80 + (v / 64) % 64,
            0x80 + v % 64] from by simp [encodeCp, h1, h2, h3]]
        rw [List.cons_append, List.cons_append, List.cons_append,
          List.nil_append,
          utf8Lossy_cons_some _ _ v 3
            (utf8DecodeOne_three v bs (by omega) h3 hsur)]
        simp
      · rw [show encodeCp v = [0xF0 + v / 262144, 0x80 + (v / 4096) % 64,
            0x80 + (v / 64) % 64, 0x80 + v % 64] from by
          simp [encodeCp, h1, h2, h3]]
        rw [List.cons_append, List.cons_append, List.cons_append,
          List.cons_append, List.nil_append,
          utf8Lossy_cons_some _ _ v 4
            (utf8DecodeOne_four v bs (by omega) hlt)]
        simp

theorem utf8Lossy_encodeAll (cps : List Nat) (h : ∀ v ∈ cps, ValidCp v) :
    utf8Lossy (encodeAll cps) = cps := by
  induction cps with
  | nil => rfl
  | cons v rest ih =>
    rw [show encodeAll (v :: rest) = encodeCp v ++ encodeAll rest from by
      simp [encodeAll]]
    rw [utf8Lossy_encode_cons v (h v (by simp)) _,
      ih (fun w hw => h w (by simp [hw]))]

theorem encodeAll_cons_ne_nil (v : Nat) (rest : List Nat) :
    encodeAll (v :: rest) ≠ [] := by
  simp only [encodeAll, List.map_cons, List.flatten_cons, encodeCp]
  split_ifs <;> simp

/-! ## Output Pump lemmas -/

/-- A read outcome that keeps the Reading loop going: `Ok(n)` with `n > 0`. -/
def GoodChunk (r : ReadResult) : Prop := ∃ b bs, r = ReadResult.ok (b :: bs)

theorem pumpLoop_cons_ne_nil (sid : String) (bs : List Nat)
    (rest : List ReadResult) (h : bs ≠ []) :
    pumpLoop sid (ReadResult.ok bs :: rest) =
      PtyEvent.data sid (utf8Lossy bs) :: pumpLoop sid rest := by
  cases bs with
  | nil => exact absurd rfl h
  | cons b bs' => rfl

theorem pumpLoop_mem (sid : String) (reads : List ReadResult) :
    ∀ e ∈ pumpLoop sid reads, ∃ b bs, ReadResult.ok (b :: bs) ∈ reads ∧
      e = PtyEvent.data sid (utf8Lossy (b :: bs)) := by
  induction reads with
  | nil => intro e he; simp [pumpLoop] at he
  | cons r rest ih =>
    intro e he
    cases r with
    | err => simp [pumpLoop] at he
    | ok bs =>
      cases bs with
      | nil => simp [pumpLoop] at he
      | cons b bs' =>
        simp only [pumpLoop, List.mem_cons] at he
        rcases he with he | he
        · exact ⟨b, bs', by simp, he⟩
        · obtain ⟨b', bs'', hmem, he'⟩ := ih e he
          exact ⟨b', bs'', by simp [hmem], he'⟩

theorem pumpLoop_append_stop (sid : String) (chunks more : List ReadResult)
    (stop : ReadResult) (hstop : stop = ReadResult.err ∨ stop = ReadResult.ok [])
    (hchunks : ∀ r ∈ chunks, GoodChunk r) :
    pumpLoop sid (chunks ++ stop :: more) = pumpLoop sid chunks := by
  induction chunks with
  | nil =>
    rcases hstop with h | h <;> subst h <;> rfl
  | cons r rest ih =>
    obtain ⟨b, bs, hr⟩ := hchunks r (by simp)
    subst hr
    simp only [List.cons_append, pumpLoop]
    exact congrArg _ (ih (fun r' hr' => hchunks r' (by simp [hr'])))

/-! ## Concrete fixtures for witnesses and counterexamples -/

/-- A spawn environment in which every OS step succeeds and the child will
exit with status 0. -/
def envOK : SpawnEnv := ⟨none, none, none, none, none, none, some 0, none, none⟩

/-- A spawn environment in which pseudo-terminal allocation fails. -/
def envOpenFail : SpawnEnv :=
  ⟨some "openpty failed", none, none, none, none, none, some 0, none, none⟩

/-- A live session handle whose writer already committed one byte. -/
def sessA : PtySession :=
  ⟨⟨[1], [], none, none⟩, ⟨some 0, none⟩, ⟨24, 80, none⟩⟩

/-- A fresh live session handle with fully functional I/O. -/
def sessLive : PtySession :=
  ⟨⟨[], [], none, none⟩, ⟨some 0, none⟩, ⟨24, 80, none⟩⟩

/-- A live session handle whose input sink fails on the next `write_all`. -/
def sessWriteFail : PtySession :=
  ⟨⟨[], [], some "broken pipe", none⟩, ⟨some 0, none⟩, ⟨24, 80, none⟩⟩

/-! ## Claims -/

/-- Claim C1, counterexample: calling `spawn_pty` with an identifier that is
already live does NOT report a collision error — it returns `Ok(())` and the
`HashMap::insert` silently replaces the previously registered handle. -/
theorem claim_C1_counterexample :
    (spawn_pty envOK [("s1", sessA)] "s1" "/tmp").res = Except.ok ()
    ∧ (spawn_pty envOK [("s1", sessA)] "s1" "/tmp").registry.get "s1" ≠ some sessA := by
  constructor
  · rfl
  · decide

/-- Claim C1 as amended: when spawn is called with a session identifier that
is already registered and still live and every OS step succeeds, the call
succeeds (no collision error is reported) and the freshly built Session
Handle silently replaces the existing entry; the Registry still never holds
two entries under the same identifier, because insertion overwrites in
place. -/
theorem claim_C1_amended (env : SpawnEnv) (reg : Registry) (sid cwd : String)
    (s : PtySession) (_hlive : reg.get sid = some s)
    (h1 : env.openptyErr = none) (h2 : env.spawnErr = none)
    (h3 : env.writerErr = none) (h4 : env.readerErr = none) :
    (spawn_pty env reg sid cwd).res = Except.ok ()
    ∧ (spawn_pty env reg sid cwd).registry.get sid = some (spawnSession env)
    ∧ (KeysNodup reg → KeysNodup (spawn_pty env reg sid cwd).registry) := by
  refine ⟨?_, ?_, ?_⟩
  · simp [spawn_pty, h1, h2, h3, h4]
  · simp only [spawn_pty, h1, h2, h3, h4]
    exact Registry.get_insert_self reg sid _
  · intro h
    simp only [spawn_pty, h1, h2, h3, h4]
    exact Registry.insert_keysNodup reg sid _ h

/-- Witness for C1 amended at a concrete live registry. -/
theorem claim_C1_amended_witness :
    Registry.get [("s1", sessA)] "s1" = some sessA
    ∧ (spawn_pty envOK [("s1", sessA)] "s1" "/tmp").res = Except.ok ()
    ∧ (spawn_pty envOK [("s1", sessA)] "s1" "/tmp").registry.get "s1"
        = some (spawnSession envOK) :=
  ⟨by decide,
   (claim_C1_amended envOK [("s1", sessA)] "s1" "/tmp" sessA (by decide)
     rfl rfl rfl rfl).1,
   (claim_C1_amended envOK [("s1", sessA)] "s1" "/tmp" sessA (by decide)
     rfl rfl rfl rfl).2.1⟩

/-- Claim C2: when any OS step of spawn fails, `spawn_pty` returns that
underlying error, the registry is unchanged, no handle exists for a fresh
identifier, and no Output Pump thread is started. -/
theorem claim_C2_spawn_failure (env : SpawnEnv) (reg : Registry)
    (sid cwd e : String) (hres : (spawn_pty env reg sid cwd).res = Except.error e) :
    (spawn_pty env reg sid cwd).registry = reg
    ∧ (spawn_pty env reg sid cwd).pumpStarted = false
    ∧ (reg.get sid = none → (spawn_pty env reg sid cwd).registry.get sid = none)
    ∧ (env.openptyErr = some e ∨ env.spawnErr = some e ∨ env.writerErr = some e
        ∨ env.readerErr = some e) := by
  rcases h1 : env.openptyErr with _ | e1
  · rcases h2 : env.spawnErr with _ | e2
    · rcases h3 : env.writerErr with _ | e3
      · rcases h4 : env.readerErr with _ | e4
        · simp [spawn_pty, h1, h2, h3, h4] at hres
        · simp only [spawn_pty, h1, h2, h3, h4, Except.error.injEq] at hres
          subst hres
          refine ⟨?_, ?_, ?_, Or.inr (Or.inr (Or.inr rfl))⟩ <;>
            simp [spawn_pty, h1, h2, h3, h4]
      · simp only [spawn_pty, h1, h2, h3, Except.error.injEq] at hres
        subst hres
        refine ⟨?_, ?_, ?_, Or.inr (Or.inr (Or.inl rfl))⟩ <;>
          simp [spawn_pty, h1, h2, h3]
    · simp only [spawn_pty, h1, h2, Except.error.injEq] at hres
      subst hres
      refine ⟨?_, ?_, ?_, Or.inr (Or.inl rfl)⟩ <;>
        simp [spawn_pty, h1, h2]
  · simp only [spawn_pty, h1, Except.error.injEq] at hres
    subst hres
    refine ⟨?_, ?_, ?_, Or.inl rfl⟩ <;>
      simp [spawn_pty, h1]

/-- Witness for C2: a concrete spawn whose pty allocation fails registers
nothing and starts no pump. -/
theorem claim_C2_witness :
    (spawn_pty envOpenFail [] "s1" "/tmp").registry = ([] : Registry)
    ∧ (spawn_pty envOpenFail [] "s1" "/tmp").pumpStarted = false :=
  ⟨(claim_C2_spawn_failure envOpenFail [] "s1" "/tmp" "openpty failed" rfl).1,
   (claim_C2_spawn_failure envOpenFail [] "s1" "/tmp" "openpty failed" rfl).2.1⟩

/-- Claim C10: the launched program is always the fixed command `"claude"`
with no arguments and the caller-supplied working directory; no caller input
selects the program or its arguments. -/
theorem claim_C10_fixed_command (env : SpawnEnv) (reg : Registry)
    (sid cwd : String) :
    (∀ c, (spawn_pty env reg sid cwd).launched = some c →
      c.program = "claude" ∧ c.args = [] ∧ c.cwd = cwd)
    ∧ ((spawn_pty env reg sid cwd).res = Except.ok () →
      (spawn_pty env reg sid cwd).launched = some ⟨"claude", [], cwd⟩) := by
  have hl : ∀ c, (spawn_pty env reg sid cwd).launched = some c →
      c = (⟨"claude", [], cwd⟩ : CommandBuilder) := by
    intro c hc
    rcases h1 : env.openptyErr with _ | e1
    · rcases h2 : env.spawnErr with _ | e2
      · rcases h3 : env.writerErr with _ | e3
        · rcases h4 : env.readerErr with _ | e4
          · simp only [spawn_pty, h1, h2, h3, h4, Option.some.injEq] at hc
            exact hc.symm
          · simp only [spawn_pty, h1, h2, h3, h4, Option.some.injEq] at hc
            exact hc.symm
        · simp only [spawn_pty, h1, h2, h3, Option.some.injEq] at hc
          exact hc.symm
      · simp only [spawn_pty, h1, h2, Option.some.injEq] at hc
        exact hc.symm
    · simp [spawn_pty, h1] at hc
  constructor
  · intro c hc
    rw [hl c hc]
    exact ⟨rfl, rfl, rfl⟩
  · intro hok
    rcases h1 : env.openptyErr with _ | e1
    · rcases h2 : env.spawnErr with _ | e2
      · rcases h3 : env.writerErr with _ | e3
        · rcases h4 : env.readerErr with _ | e4
          · simp [spawn_pty, h1, h2, h3, h4]
          · simp [spawn_pty, h1, h2, h3, h4] at hok
        · simp [spawn_pty, h1, h2, h3] at hok
      · simp [spawn_pty, h1, h2] at hok
    · simp [spawn_pty, h1] at hok

/-- Witness for C10 at a concrete successful spawn. -/
theorem claim_C10_witness :
    (spawn_pty envOK [] "s1" "/tmp").launched
      = some ⟨"claude", [], "/tmp"⟩ :=
  (claim_C10_fixed_command envOK [] "s1" "/tmp").2 rfl

/-- Claim C3: the trace of one pump thread is zero or more data events for its
session, in stream order, followed by exactly one exit event, and nothing of
either kind afterwards. -/
theorem claim_C3_event_order (sid : String) (reads : List ReadResult)
    (reg : Registry) :
    ∃ ds : List PtyEvent,
      (pumpRun sid reads reg).1 = ds ++ [PtyEvent.exit sid (reapExitCode reg sid)]
      ∧ (∀ e ∈ ds, ∃ p, e = PtyEvent.data sid p)
      ∧ ((pumpRun sid reads reg).1.filter isExitEvent)
          = [PtyEvent.exit sid (reapExitCode reg sid)] := by
  refine ⟨pumpLoop sid reads, rfl, ?_, ?_⟩
  · intro e he
    obtain ⟨b, bs, _, he'⟩ := pumpLoop_mem sid reads e he
    exact ⟨utf8Lossy (b :: bs), he'⟩
  · have hnil : (pumpLoop sid reads).filter isExitEvent = [] := by
      rw [List.filter_eq_nil_iff]
      intro e he
      obtain ⟨b, bs, _, he'⟩ := pumpLoop_mem sid reads e he
      simp [isExitEvent, he']
    show (pumpLoop sid reads ++ [PtyEvent.exit sid (reapExitCode reg sid)]).filter
        isExitEvent = _
    rw [List.filter_append, hnil]
    rfl

/-- Claim C4: in the Reading state every read requests at most
`BUF_SIZE = 4096` bytes; every non-empty read is decoded by the total (never
fatal) lossy UTF-8 decoder and forwarded as one data notification tagged with
the session identifier; a zero-length read and a read error both end the loop
and proceed to exit handling without retracting output already emitted. -/
theorem claim_C4_reading_state (sid : String) (reads chunks more : List ReadResult)
    (reg : Registry) :
    BUF_SIZE = 4096
    ∧ (∀ e ∈ pumpLoop sid reads, ∃ b bs, ReadResult.ok (b :: bs) ∈ reads
        ∧ e = PtyEvent.data sid (utf8Lossy (b :: bs)))
    ∧ ((∀ bs, ReadResult.ok bs ∈ reads → bs.length ≤ BUF_SIZE) →
        ∀ e ∈ pumpLoop sid reads, (payloadOf e).length ≤ BUF_SIZE)
    ∧ pumpLoop sid (ReadResult.ok [] :: more) = []
    ∧ pumpLoop sid (ReadResult.err :: more) = []
    ∧ ((∀ r ∈ chunks, GoodChunk r) →
        (pumpRun sid (chunks ++ ReadResult.err :: more) reg).1
          = pumpLoop sid chunks ++ [PtyEvent.exit sid (reapExitCode reg sid)]
        ∧ (pumpRun sid (chunks ++ ReadResult.ok [] :: more) reg).1
          = pumpLoop sid chunks ++ [PtyEvent.exit sid (reapExitCode reg sid)]) := by
  refine ⟨rfl, pumpLoop_mem sid reads, ?_, rfl, rfl, ?_⟩
  · intro hb e he
    obtain ⟨b, bs, hmem, he'⟩ := pumpLoop_mem sid reads e he
    subst he'
    simp only [payloadOf]
    exact le_trans (utf8Lossy_length_le _) (hb _ hmem)
  · intro hg
    constructor
    · show pumpLoop sid (chunks ++ ReadResult.err :: more)
          ++ [(pumpFinish reg sid).1] = _
      rw [pumpLoop_append_stop sid chunks more ReadResult.err (Or.inl rfl) hg]
      rfl
    · show pumpLoop sid (chunks ++ ReadResult.ok [] :: more)
          ++ [(pumpFinish reg sid).1] = _
      rw [pumpLoop_append_stop sid chunks more (ReadResult.ok []) (Or.inr rfl) hg]
      rfl

/-- Witness for C4: a concrete pump trace with one data chunk and then a read
error emits the decoded chunk and the exit event. -/
theorem claim_C4_witness :
    (pumpRun "s1" [ReadResult.ok [104, 105], ReadResult.err] []).1
      = [PtyEvent.data "s1" [104, 105], PtyEvent.exit "s1" (-1)] := by
  have h := ((claim_C4_reading_state "s1" [ReadResult.ok [104, 105], ReadResult.err]
      [ReadResult.ok [104, 105]] [] []).2.2.2.2.2
    (by
      intro r hr
      simp only [List.mem_singleton] at hr
      subst hr
      exact ⟨104, [105], rfl⟩)).1
  calc (pumpRun "s1" [ReadResult.ok [104, 105], ReadResult.err] []).1
      = pumpLoop "s1" [ReadResult.ok [104, 105]]
          ++ [PtyEvent.exit "s1" (reapExitCode [] "s1")] := h
    _ = [PtyEvent.data "s1" [104, 105], PtyEvent.exit "s1" (-1)] := by decide

/-- Claim C5: when the pump leaves Reading it removes the session's entry
(a no-op when already removed) and the exit event carries the child's wait
status as an `i32`, or the sentinel `-1` when the entry is gone or the wait
fails. -/
theorem claim_C5_drain_exit (reg : Registry) (sid : String) :
    (pumpFinish reg sid).2 = (reg.remove sid).2
    ∧ (reg.get sid = none → (pumpFinish reg sid).2 = reg)
    ∧ (∀ s v, reg.get sid = some s → s.child.waitResult = some v →
        (pumpFinish reg sid).1 = PtyEvent.exit sid (u32ToI32 v))
    ∧ (∀ s, reg.get sid = some s → s.child.waitResult = none →
        (pumpFinish reg sid).1 = PtyEvent.exit sid (-1))
    ∧ (reg.get sid = none → (pumpFinish reg sid).1 = PtyEvent.exit sid (-1)) := by
  refine ⟨rfl, fun h => Registry.remove_absent reg sid h, ?_, ?_, ?_⟩
  · intro s v hs hw
    have hr : (reg.remove sid).1 = some s := by
      rw [Registry.remove_fst]
      exact hs
    simp only [pumpFinish, reapExitCode, hr, hw]
  · intro s hs hw
    have hr : (reg.remove sid).1 = some s := by
      rw [Registry.remove_fst]
      exact hs
    simp only [pumpFinish, reapExitCode, hr, hw]
  · intro h
    have hr : (reg.remove sid).1 = none := by
      rw [Registry.remove_fst]
      exact h
    simp only [pumpFinish, reapExitCode, hr]

/-- Witness for C5: reaping a concrete live entry removes it and reports the
child's exit status 0. -/
theorem claim_C5_witness :
    Registry.get [("s1", sessA)] "s1" = some sessA
    ∧ (pumpFinish [("s1", sessA)] "s1").1 = PtyEvent.exit "s1" (u32ToI32 0)
    ∧ (pumpFinish [("s1", sessA)] "s1").2 = [] :=
  ⟨by decide,
   (claim_C5_drain_exit [("s1", sessA)] "s1").2.2.1 sessA 0 (by decide) rfl,
   by decide⟩

/-- Claim C6: write and resize on an absent identifier return the not-found
error (and the registry is untouched); a successful write commits the whole
payload to the input sink and flushes it before returning, leaving nothing
buffered across calls. -/
theorem claim_C6_write_resize_contract (reg : Registry) (sid : String)
    (data : List Nat) (cols rows : Nat) :
    (reg.get sid = none →
      write_pty reg sid data = (Except.error "Session not found", reg)
      ∧ resize_pty reg sid cols rows = (Except.error "Session not found", reg))
    ∧ (∀ s, reg.get sid = some s → s.writer.writeResult = none →
        s.writer.flushResult = none →
        (write_pty reg sid data).1 = Except.ok ()
        ∧ Option.map (fun t => t.writer.committed)
            (Registry.get (write_pty reg sid data).2 sid)
            = some (s.writer.committed ++ s.writer.buffered ++ data)
        ∧ Option.map (fun t => t.writer.buffered)
            (Registry.get (write_pty reg sid data).2 sid) = some []) := by
  constructor
  · intro h
    constructor
    · simp [write_pty, h]
    · simp [resize_pty, h]
  · intro s hs hwr hfl
    refine ⟨?_, ?_, ?_⟩
    · simp [write_pty, hs, hwr, hfl]
    · simp only [write_pty, hs, hwr, hfl]
      rw [Registry.get_update]
      simp [hs, List.append_assoc]
    · simp only [write_pty, hs, hwr, hfl]
      rw [Registry.get_update]
      simp [hs]

/-- Witness for C6: write to a ghost identifier is not-found; a concrete
successful write commits exactly the payload with an empty buffer. -/
theorem claim_C6_witness :
    write_pty [] "ghost" [120] = (Except.error "Session not found", [])
    ∧ (write_pty [("s1", sessLive)] "s1" [104, 105]).1 = Except.ok ()
    ∧ Option.map (fun t => t.writer.committed)
        (Registry.get (write_pty [("s1", sessLive)] "s1" [104, 105]).2 "s1")
        = some [104, 105] := by
  have h := (claim_C6_write_resize_contract [("s1", sessLive)] "s1" [104, 105] 1 1).2
      sessLive (by decide) rfl rfl
  exact ⟨((claim_C6_write_resize_contract [] "ghost" [120] 1 1).1 rfl).1, h.1,
    by simpa using h.2.1⟩

/-- Claim C7: kill on an absent identifier returns not-found; otherwise it
removes the entry and requests forceful termination, returning the
termination error while the entry nevertheless stays removed; kill itself
emits no notification, and any second kill on the same identifier returns
not-found. -/
theorem claim_C7_kill_contract (reg : Registry) (sid : String) :
    (reg.get sid = none →
      kill_pty reg sid = (Except.error "Session not found", reg, []))
    ∧ (∀ s, reg.get sid = some s →
        (kill_pty reg sid).2.1 = (reg.remove sid).2
        ∧ (KeysNodup reg → Registry.get (kill_pty reg sid).2.1 sid = none)
        ∧ (∀ e, s.child.killResult = some e →
            (kill_pty reg sid).1 = Except.error e)
        ∧ (s.child.killResult = none → (kill_pty reg sid).1 = Except.ok ())
        ∧ (kill_pty reg sid).2.2 = []
        ∧ (KeysNodup reg →
            (kill_pty (kill_pty reg sid).2.1 sid).1
              = Except.error "Session not found")) := by
  constructor
  · intro h
    have hr : (reg.remove sid).1 = none := by
      rw [Registry.remove_fst]
      exact h
    rcases hrem : reg.remove sid with ⟨o, reg1⟩
    rw [hrem] at hr
    have ho : o = none := hr
    subst ho
    simp [kill_pty, hrem]
  · intro s hs
    have hr : (reg.remove sid).1 = some s := by
      rw [Registry.remove_fst]
      exact hs
    rcases hrem : reg.remove sid with ⟨o, reg1⟩
    rw [hrem] at hr
    have ho : o = some s := hr
    subst ho
    have hgone : KeysNodup reg → Registry.get reg1 sid = none := by
      intro hnd
      have h' := Registry.get_remove_self reg sid hnd
      rw [hrem] at h'
      exact h'
    refine ⟨?_, ?_, ?_, ?_, ?_, ?_⟩
    · rcases hk : s.child.killResult with _ | e <;> simp [kill_pty, hrem, hk]
    · intro hnd
      rcases hk : s.child.killResult with _ | e <;>
        simp [kill_pty, hrem, hk, hgone hnd]
    · intro e he
      simp [kill_pty, hrem, he]
    · intro he
      simp [kill_pty, hrem, he]
    · rcases hk : s.child.killResult with _ | e <;> simp [kill_pty, hrem, hk]
    · intro hnd
      have h2 : (Registry.remove reg1 sid).1 = none := by
        rw [Registry.remove_fst]
        exact hgone hnd
      have h3 : (kill_pty reg sid).2.1 = reg1 := by
        rcases hk : s.child.killResult with _ | e <;> simp [kill_pty, hrem, hk]
      rw [h3]
      rcases hrem2 : Registry.remove reg1 sid with ⟨o2, reg2⟩
      rw [hrem2] at h2
      have ho2 : o2 = none := h2
      subst ho2
      simp [kill_pty, hrem2]

/-- Witness for C7: killing a concrete live session succeeds, removes the
entry, emits nothing, and a second kill returns not-found. -/
theorem claim_C7_witness :
    (kill_pty [("s1", sessA)] "s1").1 = Except.ok ()
    ∧ (kill_pty [("s1", sessA)] "s1").2.1 = []
    ∧ (kill_pty [("s1", sessA)] "s1").2.2 = []
    ∧ (kill_pty (kill_pty [("s1", sessA)] "s1").2.1 "s1").1
        = Except.error "Session not found" := by
  have h := (claim_C7_kill_contract [("s1", sessA)] "s1").2 sessA (by decide)
  exact ⟨h.2.2.2.1 rfl, by decide, h.2.2.2.2.1,
    h.2.2.2.2.2 (by simp [KeysNodup])⟩

/-- Claim C8: a write or resize call on a live session that fails with an I/O
error does not remove the session's entry — the child and terminal handles
stay registered unchanged (only the attempted operation's sink state may have
advanced), so the session stays live and retryable. -/
theorem claim_C8_failed_io_keeps_session (reg : Registry) (sid : String)
    (data : List Nat) (cols rows : Nat) (s : PtySession)
    (hlive : reg.get sid = some s) :
    (∀ e, (write_pty reg sid data).1 = Except.error e →
      Option.map (fun t => (t.child, t.master))
        (Registry.get (write_pty reg sid data).2 sid)
        = some (s.child, s.master))
    ∧ (∀ e, (resize_pty reg sid cols rows).1 = Except.error e →
      (resize_pty reg sid cols rows).2 = reg) := by
  constructor
  · intro e he
    rcases hwr : s.writer.writeResult with _ | e1
    · rcases hfl : s.writer.flushResult with _ | e2
      · simp [write_pty, hlive, hwr, hfl] at he
      · simp only [write_pty, hlive, hwr, hfl]
        rw [Registry.get_update]
        simp [hlive]
    · simp only [write_pty, hlive, hwr]
      simp [hlive]
  · intro e he
    rcases hrz : s.master.resizeResult with _ | e1
    · simp [resize_pty, hlive, hrz] at he
    · simp [resize_pty, hlive, hrz]

/-- Witness for C8: a concrete failed write leaves the session registered with
its child and master handles intact. -/
theorem claim_C8_witness :
    (write_pty [("s1", sessWriteFail)] "s1" [120]).1 = Except.error "broken pipe"
    ∧ Option.map (fun t => (t.child, t.master))
        (Registry.get (write_pty [("s1", sessWriteFail)] "s1" [120]).2 "s1")
      = some (sessWriteFail.child, sessWriteFail.master) :=
  ⟨rfl,
   (claim_C8_failed_io_keeps_session [("s1", sessWriteFail)] "s1" [120] 1 1
      sessWriteFail (by decide)).1 "broken pipe" rfl⟩

theorem pumpLoop_encoded_chunks (sid : String) : ∀ cps : List (List Nat),
    (∀ c ∈ cps, ∀ v ∈ c, ValidCp v) → (∀ c ∈ cps, c ≠ []) →
    pumpLoop sid (cps.map fun c => ReadResult.ok (encodeAll c))
      = cps.map (fun c => PtyEvent.data sid c) := by
  intro cps
  induction cps with
  | nil => intro _ _; rfl
  | cons c rest ih =>
    intro hval hne
    rcases c with _ | ⟨v, cs⟩
    · exact absurd rfl (hne [] (by simp))
    · rw [List.map_cons, List.map_cons,
        pumpLoop_cons_ne_nil sid _ _ (encodeAll_cons_ne_nil v cs),
        utf8Lossy_encodeAll _ (hval _ (by simp)),
        ih (fun c hc => hval c (by simp [hc])) (fun c hc => hne c (by simp [hc]))]

/-- Claim C9, counterexample: bytes written to a live session (here the two
UTF-8 bytes of U+00E9) and echoed back split across two reads are NOT
content-preserved in the data events — each split half decodes to U+FFFD, so
the claim as stated fails. -/
theorem claim_C9_counterexample :
    (write_pty [("s1", sessLive)] "s1" [0xC3, 0xA9]).1 = Except.ok ()
    ∧ Option.map (fun t => t.writer.committed)
        (Registry.get (write_pty [("s1", sessLive)] "s1" [0xC3, 0xA9]).2 "s1")
      = some [0xC3, 0xA9]
    ∧ ((pumpLoop "s1" [ReadResult.ok [0xC3], ReadResult.ok [0xA9]]).map
        payloadOf).flatten ≠ utf8Lossy [0xC3, 0xA9] := by
  refine ⟨rfl, by decide, by decide⟩

/-- Claim C9 as amended: bytes written and echoed back appear in the data
events in order, possibly split across multiple chunks, with their content
preserved — provided each read chunk is itself valid UTF-8 (chunk boundaries
fall on character boundaries); a chunk boundary inside a multi-byte character
instead yields replacement characters for the split bytes. -/
theorem claim_C9_roundtrip_amended (sid : String) (cps : List (List Nat))
    (hval : ∀ c ∈ cps, ∀ v ∈ c, ValidCp v) (hne : ∀ c ∈ cps, c ≠ []) :
    pumpLoop sid (cps.map fun c => ReadResult.ok (encodeAll c))
      = cps.map (fun c => PtyEvent.data sid c)
    ∧ ((pumpLoop sid (cps.map fun c => ReadResult.ok (encodeAll c))).map
        payloadOf).flatten = cps.flatten := by
  have h1 := pumpLoop_encoded_chunks sid cps hval hne
  refine ⟨h1, ?_⟩
  rw [h1, List.map_map]
  have h2 : (payloadOf ∘ fun c => PtyEvent.data sid c) = id := by
    funext c
    rfl
  rw [h2, List.map_id]

/-- Witness for C9 amended: one echoed chunk carrying "hé" arrives as exactly
its two code points. -/
theorem claim_C9_witness :
    pumpLoop "s1" ([[104, 0xE9]].map fun c => ReadResult.ok (encodeAll c))
      = [PtyEvent.data "s1" [104, 0xE9]] :=
  (claim_C9_roundtrip_amended "s1" [[104, 0xE9]] (by decide) (by decide)).1

end BonkPty
